import Mathlib

/-!
Verification of the go-libapns push-notification library core.

The Go source is shallowly embedded: Go byte strings become `List Nat`
(one entry per byte), machine integers become `Nat`/`Int` with explicit
`% 2^w` where wrap-around matters, fallible functions return `Except`,
and the stateful listener phases become pure functions over explicit
state.  The `encoding/json` behaviour relevant to `Payload.Marshal`
(string escaping with HTML escaping, UTF-8 replacement of invalid bytes,
sorted map keys, `omitempty`) is modelled after the Go standard library,
since the source delegates serialization to it.
-/

set_option maxHeartbeats 1000000

/-- Go byte strings: a list of byte values. -/
abbrev GoStr := List Nat

/-- Bytes of an ASCII Lean string literal (used for the fixed key and
constant strings appearing in the Go source). -/
def strB (s : String) : GoStr := s.data.map Char.toNat

/-- Big-endian bytes of a `uint16` value (`encoding/binary.Write` with
`binary.BigEndian`). -/
def be16 (n : Nat) : List Nat := [n % 65536 / 256, n % 256]

/-- Big-endian bytes of a `uint32` value. -/
def be32 (n : Nat) : List Nat :=
  [n % 4294967296 / 16777216, n % 16777216 / 65536, n % 65536 / 256, n % 256]

/-- `binary.BigEndian.Uint16` of the first two bytes of a buffer. -/
def be16val (l : List Nat) : Nat := l.getD 0 0 * 256 + l.getD 1 0

/-- `binary.BigEndian.Uint32` of the first four bytes of a buffer. -/
def be32val (l : List Nat) : Nat :=
  ((l.getD 0 0 * 256 + l.getD 1 0) * 256 + l.getD 2 0) * 256 + l.getD 3 0

/-- Value of one hex character, as in `encoding/hex` (`0-9`, `a-f`, `A-F`). -/
def hexDigitVal (c : Nat) : Option Nat :=
  if 48 ≤ c ∧ c ≤ 57 then some (c - 48)
  else if 97 ≤ c ∧ c ≤ 102 then some (c - 97 + 10)
  else if 65 ≤ c ∧ c ≤ 70 then some (c - 65 + 10)
  else none

/-- `hex.DecodeString`: decodes pairs of hex characters, failing on an
odd-length input or a non-hex character. -/
def hexDecode : GoStr → Option (List Nat)
  | [] => some []
  | [_] => none
  | c1 :: c2 :: rest =>
    match hexDigitVal c1, hexDigitVal c2, hexDecode rest with
    | some h, some l, some bs => some ((h * 16 + l) :: bs)
    | _, _, _ => none

/-- Lower-case hex digit (Go's `hextable`). -/
def hexChar (n : Nat) : Nat := if n < 10 then 48 + n else 87 + n

/-- `hex.EncodeToString`: two lower-case hex characters per byte. -/
def hexEncode (bs : List Nat) : GoStr :=
  bs.flatMap (fun b => [hexChar (b / 16 % 16), hexChar (b % 16)])

/-- The six-byte escape `\u00XY` used by `encoding/json` for control and
HTML-significant characters. -/
def u00esc (b : Nat) : List Nat :=
  [0x5C, 0x75, 0x30, 0x30, hexChar (b / 16), hexChar (b % 16)]

/-- Whether an ASCII byte is emitted verbatim by `encoding/json` with the
default HTML escaping (`htmlSafeSet`). -/
def asciiSafe (b : Nat) : Bool :=
  0x20 ≤ b && b ≠ 0x22 && b ≠ 0x5C && b ≠ 0x3C && b ≠ 0x3E && b ≠ 0x26

/-- Encoding of one ASCII byte inside a JSON string, per
`encoding/json`'s string encoder. -/
def escByte (b : Nat) : List Nat :=
  if asciiSafe b then [b]
  else if b = 0x22 then [0x5C, 0x22]
  else if b = 0x5C then [0x5C, 0x5C]
  else if b = 0x0A then [0x5C, 0x6E]
  else if b = 0x0D then [0x5C, 0x72]
  else if b = 0x09 then [0x5C, 0x74]
  else u00esc b

/-- Whether a byte is a UTF-8 continuation byte. -/
def contByte (b : Nat) : Bool := 0x80 ≤ b && b ≤ 0xBF

/-- Fuel-indexed worker for the `encoding/json` string-content encoder,
mirroring the Go encoder's scan with `utf8.DecodeRune`: ASCII bytes via
`escByte`, bytes starting an invalid or truncated UTF-8 sequence replaced
by the escape for U+FFFD (advancing one byte, as Go does), U+2028/U+2029
escaped, all other runes copied verbatim.  The second-byte ranges are
those of `utf8.acceptRanges`.  The fuel is an upper bound on the number
of bytes left; `jsonEsc` supplies the length. -/
def jsonEscF : Nat → List Nat → List Nat
  | 0, _ => []
  | fuel + 1, l =>
    match l with
    | [] => []
    | b :: rest =>
      if b < 0x80 then escByte b ++ jsonEscF fuel rest
      else if b < 0xC2 then strB "\\ufffd" ++ jsonEscF fuel rest
      else if b ≤ 0xDF then
        match rest with
        | b1 :: rest1 =>
          if contByte b1 then b :: b1 :: jsonEscF fuel rest1
          else strB "\\ufffd" ++ jsonEscF fuel rest
        | [] => strB "\\ufffd" ++ jsonEscF fuel rest
      else if b ≤ 0xEF then
        match rest with
        | b1 :: b2 :: rest2 =>
          if ((if b = 0xE0 then 0xA0 else 0x80) ≤ b1
              ∧ b1 ≤ (if b = 0xED then 0x9F else 0xBF) ∧ contByte b2) then
            if ((b - 0xE0) * 64 + (b1 - 0x80)) * 64 + (b2 - 0x80) = 0x2028 then
              strB "\\u2028" ++ jsonEscF fuel rest2
            else if ((b - 0xE0) * 64 + (b1 - 0x80)) * 64 + (b2 - 0x80) = 0x2029 then
              strB "\\u2029" ++ jsonEscF fuel rest2
            else b :: b1 :: b2 :: jsonEscF fuel rest2
          else strB "\\ufffd" ++ jsonEscF fuel rest
        | _ => strB "\\ufffd" ++ jsonEscF fuel rest
      else if b ≤ 0xF4 then
        match rest with
        | b1 :: b2 :: b3 :: rest3 =>
          if ((if b = 0xF0 then 0x90 else 0x80) ≤ b1
              ∧ b1 ≤ (if b = 0xF4 then 0x8F else 0xBF)
              ∧ contByte b2 ∧ contByte b3) then
            b :: b1 :: b2 :: b3 :: jsonEscF fuel rest3
          else strB "\\ufffd" ++ jsonEscF fuel rest
        | _ => strB "\\ufffd" ++ jsonEscF fuel rest
      else strB "\\ufffd" ++ jsonEscF fuel rest

/-- `encoding/json` string-content encoding of a Go string (the bytes
between the surrounding quotes). -/
def jsonEsc (l : List Nat) : List Nat := jsonEscF l.length l

/-- A JSON string literal: quote, escaped content, quote. -/
def jsonStrLit (s : GoStr) : List Nat := 0x22 :: (jsonEsc s ++ [0x22])

/-- Decimal encoding of a Go `int` (as `encoding/json` renders it). -/
def intDec (i : Int) : GoStr := strB (toString i)

/-- JSON values usable as custom-field values (`map[string]interface
\x7b\x7d` entries).  Composite custom values are modelled by their scalar
cases; no claim exercises nested arrays or objects. -/
inductive Jv where
  | jnull : Jv
  | jbool : Bool → Jv
  | jnum : Int → Jv
  | jstr : GoStr → Jv
deriving DecidableEq

/-- `encoding/json` rendering of a scalar JSON value. -/
def Jv.enc : Jv → List Nat
  | .jnull => strB "null"
  | .jbool true => strB "true"
  | .jbool false => strB "false"
  | .jnum i => intDec i
  | .jstr s => jsonStrLit s

/-- The comma separating two object members (empty after the last one). -/
def memberSep : List (GoStr × List Nat) → List Nat
  | [] => []
  | _ :: _ => [0x2C]

/-- Inner text of a JSON object: `"key":value` members joined by commas.
Each value is already rendered to bytes. -/
def renderInner : List (GoStr × List Nat) → List Nat
  | [] => []
  | (k, v) :: rest =>
    jsonStrLit k ++ [0x3A] ++ v ++ memberSep rest ++ renderInner rest

/-- A JSON object from an ordered member list. -/
def renderObj (ps : List (GoStr × List Nat)) : List Nat :=
  0x7B :: (renderInner ps ++ [0x7D])

/-- A JSON array from a list of rendered element byte strings. -/
def renderArr (vs : List (List Nat)) : List Nat :=
  0x5B :: ((vs.intersperse [0x2C]).flatten ++ [0x5D])

/-- Byte-wise lexicographic string order, as used by Go's `sort.Strings`
when `encoding/json` sorts map keys. -/
def strLt : GoStr → GoStr → Bool
  | [], [] => false
  | [], _ :: _ => true
  | _ :: _, [] => false
  | a :: as, b :: bs => a < b || (a = b && strLt as bs)

/-- Ordered insertion of one member by key. -/
def insertPair (p : GoStr × List Nat) :
    List (GoStr × List Nat) → List (GoStr × List Nat)
  | [] => [p]
  | q :: rest => if strLt q.1 p.1 then q :: insertPair p rest else p :: q :: rest

/-- Insertion sort of object members by key: the order `encoding/json`
emits the entries of a Go map. -/
def sortPairs (l : List (GoStr × List Nat)) : List (GoStr × List Nat) :=
  l.foldr insertPair []

/-- `json.Marshal` of a `map[string]interface\x7b\x7d` whose values are
already rendered: members sorted by key. -/
def jsonMarshalMap (pairs : List (GoStr × List Nat)) : List Nat :=
  renderObj (sortPairs pairs)

/-- `BadgeNumber` (badge_number.go): an integer plus an explicit set flag
so that 0 can be sent despite `omitempty`. -/
structure BadgeNumber where
  number : Int
  set : Bool
deriving DecidableEq

/-- `BadgeNumber.IsSet`. -/
def BadgeNumber.IsSet (b : BadgeNumber) : Bool := b.set

/-- `BadgeNumber.MarshalJSON`: `strconv.Itoa(b.number)`. -/
def BadgeNumber.enc (b : BadgeNumber) : List Nat := intDec b.number

/-- `APSAlertBody` (payload.go): the structured alert. -/
structure APSAlertBody where
  body : GoStr
  actionLocKey : GoStr
  locKey : GoStr
  locArgs : List GoStr
  launchImage : GoStr
  title : GoStr
  titleLocKey : GoStr
  titleLocArgs : List GoStr
deriving DecidableEq

/-- `Payload` (payload.go): one push notification as supplied by the
caller.  `ExtraData` (an `interface\x7b\x7d` never serialized) is
modelled as an optional JSON value. -/
structure Payload where
  alertText : GoStr
  badge : BadgeNumber
  sound : GoStr
  contentAvailable : Int
  category : GoStr
  alertBody : APSAlertBody
  customFields : List (GoStr × Jv)
  expirationTime : Nat
  priority : Nat
  token : GoStr
  extraData : Option Jv
deriving DecidableEq

/-- `simpleAps` (payload.go). -/
structure SimpleAps where
  alert : GoStr
  badge : BadgeNumber
  sound : GoStr
  category : GoStr
  contentAvailable : Int
deriving DecidableEq

/-- `alertBodyAps` (payload.go). -/
structure AlertBodyAps where
  alert : APSAlertBody
  badge : BadgeNumber
  sound : GoStr
  category : GoStr
  contentAvailable : Int
deriving DecidableEq

/-- JSON encoding of `APSAlertBody`: a Go struct, so fields appear in
declared order, each under its tag and omitted when empty
(`omitempty`). -/
def APSAlertBody.enc (a : APSAlertBody) : List Nat :=
  renderObj
    ((if a.body ≠ [] then [(strB "body", jsonStrLit a.body)] else [])
      ++ (if a.actionLocKey ≠ [] then
            [(strB "action-loc-key", jsonStrLit a.actionLocKey)] else [])
      ++ (if a.locKey ≠ [] then [(strB "loc-key", jsonStrLit a.locKey)] else [])
      ++ (if a.locArgs ≠ [] then
            [(strB "loc-args", renderArr (a.locArgs.map jsonStrLit))] else [])
      ++ (if a.launchImage ≠ [] then
            [(strB "launch-image", jsonStrLit a.launchImage)] else [])
      ++ (if a.title ≠ [] then [(strB "title", jsonStrLit a.title)] else [])
      ++ (if a.titleLocKey ≠ [] then
            [(strB "title-loc-key", jsonStrLit a.titleLocKey)] else [])
      ++ (if a.titleLocArgs ≠ [] then
            [(strB "title-loc-args", renderArr (a.titleLocArgs.map jsonStrLit))]
          else []))

/-- `simpleAps.MarshalJSON` (payload.go): builds a map with the non-empty
fields and marshals it (so members come out sorted by key). -/
def SimpleAps.MarshalJSON (s : SimpleAps) : List Nat :=
  jsonMarshalMap
    ((if s.alert ≠ [] then [(strB "alert", jsonStrLit s.alert)] else [])
      ++ (if s.badge.IsSet then [(strB "badge", s.badge.enc)] else [])
      ++ (if s.sound ≠ [] then [(strB "sound", jsonStrLit s.sound)] else [])
      ++ (if s.category ≠ [] then
            [(strB "category", jsonStrLit s.category)] else [])
      ++ (if s.contentAvailable ≠ 0 then
            [(strB "content-available", intDec s.contentAvailable)] else []))

/-- `alertBodyAps.MarshalJSON` (payload.go): like `simpleAps` but the
alert member is the structured alert and is always present. -/
def AlertBodyAps.MarshalJSON (a : AlertBodyAps) : List Nat :=
  jsonMarshalMap
    ([(strB "alert", a.alert.enc)]
      ++ (if a.badge.IsSet then [(strB "badge", a.badge.enc)] else [])
      ++ (if a.sound ≠ [] then [(strB "sound", jsonStrLit a.sound)] else [])
      ++ (if a.category ≠ [] then
            [(strB "category", jsonStrLit a.category)] else [])
      ++ (if a.contentAvailable ≠ 0 then
            [(strB "content-available", intDec a.contentAvailable)] else []))

/-- Errors surfaced by the embedded payload/connection code. -/
inductive GoErr where
  | reservedKeyAps : GoErr
  | payloadTooLarge : GoErr
  | tokenDecodeError : GoErr
  | invalidTokenLength : GoErr
deriving DecidableEq

/-- `constructFullPayload` (payload.go): the top-level map holding the
rendered `aps` object next to the custom fields; fails when a custom
field is named `aps`. -/
def constructFullPayload (apsBytes : List Nat)
    (customFields : List (GoStr × Jv)) :
    Except GoErr (List (GoStr × List Nat)) :=
  if customFields.any (fun kv => kv.1 = strB "aps") then .error .reservedKeyAps
  else .ok ((strB "aps", apsBytes) :: customFields.map (fun kv => (kv.1, kv.2.enc)))

/-- Go map update `fullPayload["aps"] = aps`, on the member list. -/
def setPair (k : GoStr) (v : List Nat) (pairs : List (GoStr × List Nat)) :
    List (GoStr × List Nat) :=
  pairs.map (fun kv => if kv.1 = k then (k, v) else kv)

/-- `Payload.isSimple` (payload.go): the simple shape is used when the
structured alert has no body. -/
def Payload.isSimple (p : Payload) : Bool := p.alertBody.body = []

/-- `marshalSimplePayload` (payload.go): serialize, and if over
`maxPayloadSize` clip the alert text (keeping three bytes for `...`) into
a local copy of the aps struct and serialize once more.  The payload
struct itself is returned unchanged alongside the result, mirroring the
pointer receiver the Go code never writes through. -/
def marshalSimplePayload (p : Payload) (maxPayloadSize : Int) :
    Except GoErr (List Nat) × Payload :=
  let aps : SimpleAps :=
    ⟨p.alertText, p.badge, p.sound, p.category, p.contentAvailable⟩
  match constructFullPayload aps.MarshalJSON p.customFields with
  | .error e => (.error e, p)
  | .ok fullPayload =>
    let jsonStr := jsonMarshalMap fullPayload
    let payloadLen : Int := jsonStr.length
    if payloadLen > maxPayloadSize then
      let clipSize : Int := payloadLen - maxPayloadSize + 3
      if clipSize > (p.alertText.length : Int) then (.error .payloadTooLarge, p)
      else
        let aps2 : SimpleAps :=
          { aps with
            alert := aps.alert.take (aps.alert.length - clipSize.toNat)
              ++ strB "..." }
        (.ok (jsonMarshalMap (setPair (strB "aps") aps2.MarshalJSON fullPayload)),
          p)
    else (.ok jsonStr, p)

/-- `marshalAlertBodyPayload` (payload.go): as the simple form, but the
truncatable source is the structured alert body. -/
def marshalAlertBodyPayload (p : Payload) (maxPayloadSize : Int) :
    Except GoErr (List Nat) × Payload :=
  let aps : AlertBodyAps :=
    ⟨p.alertBody, p.badge, p.sound, p.category, p.contentAvailable⟩
  match constructFullPayload aps.MarshalJSON p.customFields with
  | .error e => (.error e, p)
  | .ok fullPayload =>
    let jsonStr := jsonMarshalMap fullPayload
    let payloadLen : Int := jsonStr.length
    if payloadLen > maxPayloadSize then
      let clipSize : Int := payloadLen - maxPayloadSize + 3
      if clipSize > (p.alertBody.body.length : Int) then
        (.error .payloadTooLarge, p)
      else
        let aps2 : AlertBodyAps :=
          { aps with
            alert :=
              { aps.alert with
                body := aps.alert.body.take (aps.alert.body.length - clipSize.toNat)
                  ++ strB "..." } }
        (.ok (jsonMarshalMap (setPair (strB "aps") aps2.MarshalJSON fullPayload)),
          p)
    else (.ok jsonStr, p)

/-- `Payload.Marshal` (payload.go): dispatch on the alert shape. -/
def Payload.Marshal (p : Payload) (maxPayloadSize : Int) :
    Except GoErr (List Nat) × Payload :=
  if p.isSimple then marshalSimplePayload p maxPayloadSize
  else marshalAlertBodyPayload p maxPayloadSize

/-- `AppleError` (connection code): the decoded error reply, or a local
classification of a read failure. -/
structure AppleErrorM where
  messageId : Nat
  errorCode : Nat
  errorString : GoStr
deriving DecidableEq

/-- `idPayload`: a payload paired with its replay id. -/
structure IdPayload where
  payload : Payload
  id : Nat
deriving DecidableEq

/-- `ConnectionClose`: the terminal result delivered on the close
channel. -/
structure ConnectionCloseM where
  unsentPayloads : List Payload
  error : Option AppleErrorM
  errorPayload : Option Payload
  unsentPayloadBufferOverflow : Bool
deriving DecidableEq

/-- `CONNECTION_CLOSED_DISCONNECT`: client-initiated disconnect. -/
def CONNECTION_CLOSED_DISCONNECT : Nat := 250

/-- `CONNECTION_CLOSED_UNKNOWN`: unexplained local close. -/
def CONNECTION_CLOSED_UNKNOWN : Nat := 251

/-- `APPLE_PUSH_RESPONSES` lookup; a missing code yields the empty string
(the Go map's zero value). -/
def applePushResponse (code : Nat) : GoStr :=
  if code = 0 then strB "NO_ERRORS"
  else if code = 1 then strB "PROCESSING_ERROR"
  else if code = 2 then strB "MISSING_DEVICE_TOKEN"
  else if code = 3 then strB "MISSING_TOPIC"
  else if code = 4 then strB "MISSING_PAYLOAD"
  else if code = 5 then strB "INVALID_TOKEN_SIZE"
  else if code = 6 then strB "INVALID_TOPIC_SIZE"
  else if code = 7 then strB "INVALID_PAYLOAD_SIZE"
  else if code = 8 then strB "INVALID_TOKEN"
  else if code = 10 then strB "SHUTDOWN"
  else if code = 128 then strB "INVALID_FRAME_ITEM_ID"
  else if code = CONNECTION_CLOSED_DISCONNECT then strB "CONNECTION CLOSED DISCONNECT"
  else if code = CONNECTION_CLOSED_UNKNOWN then strB "CONNECTION CLOSED UNKNOWN"
  else if code = 255 then strB "UNKNOWN"
  else []

/-- The correlation loop of `sendListener` (connection code): walk the
replay buffer front (newest) to back (oldest); entries before the first
one whose id matches are pushed to the front of the unsent list, the
match becomes the error payload and stops the walk. -/
def correlateLoop (mid : Nat) :
    List IdPayload → List Payload → List Payload × Option Payload
  | [], acc => (acc, none)
  | e :: rest, acc =>
    if e.id = mid then (acc, some e.payload)
    else correlateLoop mid rest (e.payload :: acc)

/-- Terminal phase of `sendListener` (connection code): correlation runs
only for a real Apple error that is not a client disconnect and carries a
non-zero message id; a client disconnect then clears the error fields;
the overflow flag records unsent payloads with no identified offender. -/
def connectionCloseOf (ae : AppleErrorM) (buffer : List IdPayload) :
    ConnectionCloseM :=
  let r :=
    if ae.errorCode ≠ 0 ∧ ae.errorCode ≠ CONNECTION_CLOSED_DISCONNECT
        ∧ ae.messageId ≠ 0 then
      correlateLoop ae.messageId buffer []
    else ([], none)
  let cleared := ae.errorCode = CONNECTION_CLOSED_DISCONNECT
  let errOut : Option AppleErrorM := if cleared then none else some ae
  let errPayload : Option Payload := if cleared then none else r.2
  { unsentPayloads := r.1
    error := errOut
    errorPayload := errPayload
    unsentPayloadBufferOverflow := decide (r.1 ≠ []) && errPayload.isNone }

/-- Outcome of one `net.Conn.Read` call: the bytes delivered into the
buffer, or a failure. -/
inductive SocketRead where
  | ok : List Nat → SocketRead
  | fail : GoStr → SocketRead
deriving DecidableEq

/-- `closeListener` (connection code): one six-byte read.  On failure the
error code depends on the disconnecting flag; on success the reply is
parsed out of the six-byte buffer, which was zero-initialised and is not
checked against the byte count actually read. -/
def closeListener (r : SocketRead) (disconnecting : Bool) : AppleErrorM :=
  match r with
  | .fail msg =>
    if disconnecting then
      { messageId := 0, errorCode := CONNECTION_CLOSED_DISCONNECT,
        errorString := msg }
    else
      { messageId := 0, errorCode := CONNECTION_CLOSED_UNKNOWN,
        errorString := msg }
  | .ok data =>
    let buffer := (data ++ [0, 0, 0, 0, 0, 0]).take 6
    { messageId := be32val (buffer.drop 2)
      errorCode := buffer.getD 1 0
      errorString := applePushResponse (buffer.getD 1 0) }

/-- One frame item as appended by `bufferPayload`: item id byte, two-byte
big-endian length, body. -/
def encItem (it : Nat × List Nat) : List Nat :=
  it.1 :: (be16 it.2.length ++ it.2)

/-- The item list `bufferPayload` (connection code) writes for one
notification: token, payload and identifier always; expiration when
non-zero; priority only when exactly 5 or 10, as a one-byte item. -/
def bufferItems (p : Payload) (id : Nat) (token payloadBytes : List Nat) :
    List (Nat × List Nat) :=
  [(1, token), (2, payloadBytes), (3, be32 (id % 4294967296))]
    ++ (if p.expirationTime ≠ 0 then [(4, be32 p.expirationTime)] else [])
    ++ (if p.priority = 10 ∨ p.priority = 5 then [(5, [p.priority % 256])] else [])

/-- `bufferPayload` (connection code): hex-decode and validate the token,
marshal the payload, build the item bytes and append them to the frame
buffer behind a command byte 2 and the four-byte item-buffer length. -/
def bufferPayload (p : Payload) (id : Nat) (maxPayloadSize : Int) :
    Except GoErr (List Nat) :=
  match hexDecode p.token with
  | none => .error .tokenDecodeError
  | some token =>
    if token.length ≠ 32 then .error .invalidTokenLength
    else
      match (Payload.Marshal p maxPayloadSize).1 with
      | .error e => .error e
      | .ok payloadBytes =>
        let itemBytes := (bufferItems p id token payloadBytes).flatMap encItem
        .ok (2 :: (be32 itemBytes.length ++ itemBytes))

/-- Decode the item region of a frame back into (id, body) items, per the
wire format of §4.2.  The first argument is fuel bounding the recursion
depth; `parseItems` supplies the region length. -/
def parseItemsF : Nat → List Nat → Option (List (Nat × List Nat))
  | _, [] => some []
  | fuel + 1, id :: l1 :: l2 :: rest =>
    let n := l1 * 256 + l2
    if n ≤ rest.length then
      (parseItemsF fuel (rest.drop n)).map (fun its => (id, rest.take n) :: its)
    else none
  | _ + 1, _ => none
  | 0, _ => none

/-- Decode an item region. -/
def parseItems (l : List Nat) : Option (List (Nat × List Nat)) :=
  parseItemsF l.length l

/-- The items of an emitted frame: skip the five-byte notification
header, decode the rest. -/
def frameItems (frame : List Nat) : Option (List (Nat × List Nat)) :=
  parseItems (frame.drop 5)

/-- Id assignment step of `sendListener` (connection code): hand out the
counter, then increment it as a `uint32`, replacing 0 by 1 on wrap. -/
def assignNextId (c : Nat) : Nat × Nat :=
  (c, let c1 := (c + 1) % 4294967296; if c1 = 0 then 1 else c1)

/-- Ids assigned to `n` successive submissions starting from counter
state `c`. -/
def idSeq : Nat → Nat → List Nat
  | _, 0 => []
  | c, n + 1 => (assignNextId c).1 :: idSeq (assignNextId c).2 n

/-- Ids assigned on a fresh connection (`socketAPNSConnection` starts the
counter at 1). -/
def assignedIds (n : Nat) : List Nat := idSeq 1 n

/-- `FeedbackResponse` (feedback_service.go). -/
structure FeedbackResponse where
  timestamp : Nat
  token : GoStr
deriving DecidableEq

/-- Outcome of one `Read` against the feedback transport: delivered bytes,
end-of-stream, or another transport error. -/
inductive ReadOutcome where
  | bytes : List Nat → ReadOutcome
  | eos : ReadOutcome
  | fail : GoStr → ReadOutcome
deriving DecidableEq

/-- Errors returned by the feedback reader: a transport error, a header
read of the wrong size, or a token read of the wrong size. -/
inductive FeedbackErr where
  | transport : GoStr → FeedbackErr
  | headerSize : Nat → FeedbackErr
  | tokenSize : Nat → Nat → FeedbackErr
deriving DecidableEq

/-- `readFromFeedbackService` (feedback_service.go) over a script of read
outcomes: end-of-stream at either read position returns the accumulated
responses cleanly; any other failure, a header read that is not exactly
six bytes, or a token read that does not match the promised length
returns them with an error.  `none` marks a script too short to decide
the next read (the Go loop would still be blocked in `Read`). -/
def readFromFeedbackService :
    List ReadOutcome → List FeedbackResponse →
    Option (List FeedbackResponse × Option FeedbackErr)
  | [], _ => none
  | .eos :: _, acc => some (acc, none)
  | .fail e :: _, acc => some (acc, some (.transport e))
  | .bytes hdr :: rest, acc =>
    if hdr.length ≠ 6 then some (acc, some (.headerSize hdr.length))
    else
      match rest with
      | [] => none
      | .eos :: _ => some (acc, none)
      | .fail e :: _ => some (acc, some (.transport e))
      | .bytes tok :: rest2 =>
        let tokenSize := be16val (hdr.drop 4)
        if tok.length ≠ tokenSize then
          some (acc, some (.tokenSize tokenSize tok.length))
        else
          readFromFeedbackService rest2
            (acc ++ [{ timestamp := be32val hdr, token := hexEncode tok }])

/-- The two reads produced by one well-formed feedback record: a six-byte
header carrying the timestamp and token length, then the token bytes. -/
def feedbackRecordReads (r : Nat × List Nat) : List ReadOutcome :=
  [.bytes (be32 r.1 ++ be16 r.2.length), .bytes r.2]

/-- The responses a list of well-formed records should produce. -/
def feedbackExpected (records : List (Nat × List Nat)) :
    List FeedbackResponse :=
  records.map (fun r => { timestamp := r.1 % 4294967296, token := hexEncode r.2 })

/-- A read script whose next record is truncated in one of the ways the
feedback reader treats as an error: a short header read, a non-EOF
transport error before or inside a record, or a token read shorter than
the length the header promised. -/
def badFeedbackTail (tail : List ReadOutcome) : Prop :=
  (∃ bs rest, tail = .bytes bs :: rest ∧ bs.length < 6)
  ∨ (∃ e rest, tail = .fail e :: rest)
  ∨ (∃ hdr e rest, tail = .bytes hdr :: .fail e :: rest ∧ hdr.length = 6)
  ∨ (∃ hdr tok rest, tail = .bytes hdr :: .bytes tok :: rest ∧ hdr.length = 6
      ∧ tok.length < be16val (hdr.drop 4))

/-- The correlation loop on a buffer containing no match pushes every
payload, yielding the reversed buffer. -/
lemma correlateLoop_no_match (mid : Nat) (l : List IdPayload)
    (acc : List Payload) (h : ∀ x ∈ l, x.id ≠ mid) :
    correlateLoop mid l acc
      = ((l.map (fun x => x.payload)).reverse ++ acc, none) := by
  induction l generalizing acc with
  | nil => simp [correlateLoop]
  | cons e rest ih =>
    have he : e.id ≠ mid := h e (by simp)
    simp only [correlateLoop, if_neg he]
    rw [ih _ (fun x hx => h x (by simp [hx]))]
    simp

/-- The correlation loop stops at the first matching entry, having pushed
exactly the entries in front of it. -/
lemma correlateLoop_found (mid : Nat) (pre post : List IdPayload)
    (off : IdPayload) (acc : List Payload)
    (hpre : ∀ x ∈ pre, x.id ≠ mid) (hoff : off.id = mid) :
    correlateLoop mid (pre ++ off :: post) acc
      = ((pre.map (fun x => x.payload)).reverse ++ acc, some off.payload) := by
  induction pre generalizing acc with
  | nil => simp [correlateLoop, hoff]
  | cons e rest ih =>
    have he : e.id ≠ mid := hpre e (by simp)
    simp only [List.cons_append, correlateLoop, if_neg he, List.append_eq]
    rw [ih _ (fun x hx => hpre x (List.mem_cons_of_mem e hx))]
    simp

/-- C1: when the terminal correlation phase of `sendListener` runs with an
Apple error whose code is neither 0 nor the client-disconnect code, and
whose message id matches an entry still in the replay buffer (the
entries in front of it — the strictly newer ones — do not match, and the
id is non-zero, as all assigned ids are), the `ConnectionClose` carries
exactly that entry's payload as `errorPayload` and exactly the strictly
newer entries' payloads as `unsentPayloads`, in original send order
(oldest first, i.e. the front-first buffer walk reversed). -/
theorem sendListener_correlation_found (ae : AppleErrorM)
    (pre post : List IdPayload) (off : IdPayload)
    (h0 : ae.errorCode ≠ 0)
    (hd : ae.errorCode ≠ CONNECTION_CLOSED_DISCONNECT)
    (hoff : off.id = ae.messageId)
    (hpre : ∀ x ∈ pre, x.id ≠ ae.messageId)
    (hnz : ae.messageId ≠ 0) :
    connectionCloseOf ae (pre ++ off :: post) =
      { unsentPayloads := (pre.map (fun x => x.payload)).reverse
        error := some ae
        errorPayload := some off.payload
        unsentPayloadBufferOverflow := false } := by
  have hg : ae.errorCode ≠ 0 ∧ ae.errorCode ≠ CONNECTION_CLOSED_DISCONNECT
      ∧ ae.messageId ≠ 0 := ⟨h0, hd, hnz⟩
  simp only [connectionCloseOf, if_pos hg,
    correlateLoop_found ae.messageId pre post off [] hpre hoff, if_neg hd]
  simp

/-- C2: with a real, non-disconnect error carrying a non-zero message id
that matches no entry of the (non-empty) replay buffer, the whole buffer
is reported unsent (oldest first), no error payload is identified, and
the overflow flag is set; and whenever the error payload is absent and
the error code is non-zero, the overflow flag holds exactly when some
unsent payloads were reported. -/
theorem sendListener_correlation_evicted (ae : AppleErrorM)
    (buffer : List IdPayload) :
    (ae.errorCode ≠ 0 → ae.errorCode ≠ CONNECTION_CLOSED_DISCONNECT →
      ae.messageId ≠ 0 → (∀ x ∈ buffer, x.id ≠ ae.messageId) → buffer ≠ [] →
      connectionCloseOf ae buffer =
        { unsentPayloads := (buffer.map (fun x => x.payload)).reverse
          error := some ae
          errorPayload := none
          unsentPayloadBufferOverflow := true })
    ∧ ((connectionCloseOf ae buffer).errorPayload = none → ae.errorCode ≠ 0 →
      ((connectionCloseOf ae buffer).unsentPayloadBufferOverflow = true ↔
        (connectionCloseOf ae buffer).unsentPayloads ≠ [])) := by
  constructor
  · intro h0 hd hnz hnomatch hne
    have hg : ae.errorCode ≠ 0 ∧ ae.errorCode ≠ CONNECTION_CLOSED_DISCONNECT
        ∧ ae.messageId ≠ 0 := ⟨h0, hd, hnz⟩
    simp only [connectionCloseOf, if_pos hg,
      correlateLoop_no_match ae.messageId buffer [] hnomatch, if_neg hd]
    simp [hne]
  · intro hep h0
    by_cases hc : ae.errorCode = CONNECTION_CLOSED_DISCONNECT
    · have hg : ¬(ae.errorCode ≠ 0
          ∧ ae.errorCode ≠ CONNECTION_CLOSED_DISCONNECT
          ∧ ae.messageId ≠ 0) := by
        intro h; exact h.2.1 hc
      simp [connectionCloseOf, if_neg hg, hc]
    · by_cases hg : ae.errorCode ≠ 0
          ∧ ae.errorCode ≠ CONNECTION_CLOSED_DISCONNECT ∧ ae.messageId ≠ 0
      · simp only [connectionCloseOf, if_pos hg, if_neg hc] at hep ⊢
        simp only [hep]
        simp
      · simp only [connectionCloseOf, if_neg hg, if_neg hc] at hep ⊢
        simp

/-- Token with the given final two hex characters, as in the spec's
end-to-end scenarios. -/
def wTok (last : String) : GoStr :=
  strB ("4ec500020d8350072d2417ba566feda10b2b266558371a65ba67fede21393c"
    ++ last)

/-- A minimal payload carrying only alert text and a token. -/
def wP (last : String) : Payload :=
  { alertText := strB "Testing"
    badge := ⟨0, false⟩
    sound := []
    contentAvailable := 0
    category := []
    alertBody := ⟨[], [], [], [], [], [], [], []⟩
    customFields := []
    expirationTime := 0
    priority := 0
    token := wTok last
    extraData := none }

/-- Witness for C1: the spec's scenario 3 — four payloads in the buffer,
error on id 2 — reports the second payload as the offender and the third
and fourth, oldest first, as unsent. -/
theorem sendListener_correlation_found_witness :
    connectionCloseOf ⟨2, 8, strB "INVALID_TOKEN"⟩
        ([⟨wP "8c", 4⟩, ⟨wP "8d", 3⟩] ++ ⟨wP "8e", 2⟩ :: [⟨wP "8f", 1⟩]) =
      { unsentPayloads := [wP "8d", wP "8c"]
        error := some ⟨2, 8, strB "INVALID_TOKEN"⟩
        errorPayload := some (wP "8e")
        unsentPayloadBufferOverflow := false } :=
  (sendListener_correlation_found ⟨2, 8, strB "INVALID_TOKEN"⟩
    [⟨wP "8c", 4⟩, ⟨wP "8d", 3⟩] [⟨wP "8f", 1⟩] ⟨wP "8e", 2⟩
    (by decide) (by decide) (by decide) (by decide) (by decide)).trans
    (by decide)

/-- Witness for C2: the spec's scenario 4 — buffer of size one after four
sends, error on the evicted id 2 — reports the sole survivor unsent with
the overflow flag set; and the overflow flag agrees with non-emptiness
of the unsent list. -/
theorem sendListener_correlation_evicted_witness :
    (connectionCloseOf ⟨2, 8, strB "INVALID_TOKEN"⟩ [⟨wP "8c", 4⟩] =
      { unsentPayloads := [wP "8c"]
        error := some ⟨2, 8, strB "INVALID_TOKEN"⟩
        errorPayload := none
        unsentPayloadBufferOverflow := true })
    ∧ ((connectionCloseOf ⟨2, 8, strB "INVALID_TOKEN"⟩
          [⟨wP "8c", 4⟩]).unsentPayloadBufferOverflow = true ↔
        (connectionCloseOf ⟨2, 8, strB "INVALID_TOKEN"⟩
          [⟨wP "8c", 4⟩]).unsentPayloads ≠ []) :=
  ⟨((sendListener_correlation_evicted ⟨2, 8, strB "INVALID_TOKEN"⟩
      [⟨wP "8c", 4⟩]).1 (by decide) (by decide) (by decide) (by decide)
      (by decide)).trans (by decide),
    (sendListener_correlation_evicted ⟨2, 8, strB "INVALID_TOKEN"⟩
      [⟨wP "8c", 4⟩]).2 (by decide) (by decide)⟩

/-- Successor relation on assigned ids: increment, wrapping `2^32 - 1`
around to 1 (skipping 0). -/
def idSucc (a b : Nat) : Prop := b = if a = 4294967295 then 1 else a + 1

/-- The first id handed out from counter state `c` is `c`. -/
lemma idSeq_head (c n : Nat) (h : 0 < n) : (idSeq c n).head? = some c := by
  cases n with
  | zero => omega
  | succ m => rfl

/-- From any in-range counter state the assigned ids are non-zero and
successive. -/
lemma idSeq_good (n : Nat) : ∀ c, 1 ≤ c → c < 4294967296 →
    (∀ id ∈ idSeq c n, id ≠ 0) ∧ List.Chain' idSucc (idSeq c n) := by
  induction n with
  | zero => intro c _ _; simp [idSeq]
  | succ m ih =>
    intro c h1 h2
    have hc1 : 1 ≤ (assignNextId c).2 ∧ (assignNextId c).2 < 4294967296 := by
      simp only [assignNextId]
      split <;> omega
    obtain ⟨ih1, ih2⟩ := ih (assignNextId c).2 hc1.1 hc1.2
    constructor
    · intro id hid
      simp only [idSeq, List.mem_cons] at hid
      rcases hid with h | h
      · have : (assignNextId c).1 = c := rfl
        omega
      · exact ih1 id h
    · show List.Chain' idSucc ((assignNextId c).1 :: idSeq (assignNextId c).2 m)
      rw [List.chain'_cons']
      refine ⟨?_, ih2⟩
      intro b hb
      cases m with
      | zero => simp [idSeq] at hb
      | succ k =>
        rw [idSeq_head _ _ (Nat.succ_pos k)] at hb
        simp only [Option.mem_def, Option.some.injEq] at hb
        subst hb
        show (assignNextId c).2 = _
        simp only [assignNextId]
        split <;> split <;> omega

/-- C6: on a live connection every assigned id is non-zero, successive
ids increase by one modulo `2^32` with 0 skipped on wrap-around, and the
very first submission receives id 1. -/
theorem assignedIds_nonzero_strictly_increasing (n : Nat) :
    (∀ id ∈ assignedIds n, id ≠ 0)
    ∧ List.Chain' idSucc (assignedIds n)
    ∧ (0 < n → (assignedIds n).head? = some 1) := by
  obtain ⟨h1, h2⟩ := idSeq_good n 1 (by omega) (by omega)
  exact ⟨h1, h2, fun h => idSeq_head 1 n h⟩

/-- Witness for C6: the first four assigned ids, evaluated, with the
theorem applied at `n = 4`; wrap-around from `2^32 - 1` lands on 1. -/
theorem assignedIds_witness :
    assignedIds 4 = [1, 2, 3, 4]
    ∧ (∀ id ∈ assignedIds 4, id ≠ 0)
    ∧ (assignedIds 4).head? = some 1
    ∧ idSeq 4294967295 2 = [4294967295, 1] :=
  ⟨by decide, (assignedIds_nonzero_strictly_increasing 4).1,
    (assignedIds_nonzero_strictly_increasing 4).2.2 (by decide), by decide⟩

/-- Counterexample for C8: a successful one-byte read of `[0x08]` is not
mapped to the UNKNOWN status 255 — the zero-padded buffer parses with
error code 0. -/
theorem closeListener_short_read_counterexample :
    List.length [8] < 6
    ∧ (closeListener (SocketRead.ok [8]) false).errorCode = 0
    ∧ ¬((closeListener (SocketRead.ok [8]) false).errorCode = 255) := by
  decide

/-- C8 (amended): `closeListener` ignores the byte count of a successful
read; a read of fewer than 6 bytes is parsed from the zero-padded
six-byte buffer — the error code is byte 1 of the data (0 when fewer
than two bytes arrived), the message id is the big-endian word in bytes
2–5 of the padded buffer, and the error string is the table entry for
that code.  No mapping to UNKNOWN (255) takes place. -/
theorem closeListener_short_read_zero_padded (data : List Nat) (d : Bool)
    (h : data.length < 6) :
    (closeListener (SocketRead.ok data) d).errorCode = data.getD 1 0
    ∧ (closeListener (SocketRead.ok data) d).messageId
        = be32val (data.drop 2)
    ∧ (closeListener (SocketRead.ok data) d).errorString
        = applePushResponse (data.getD 1 0) := by
  rcases data with _ | ⟨a, _ | ⟨b, _ | ⟨c, _ | ⟨e, _ | ⟨f, _ | ⟨g, rest⟩⟩⟩⟩⟩⟩
  · simp [closeListener, be32val, List.getD]
  · simp [closeListener, be32val, List.getD]
  · simp [closeListener, be32val, List.getD]
  · simp [closeListener, be32val, List.getD]
  · simp [closeListener, be32val, List.getD]
  · simp [closeListener, be32val, List.getD]
  · simp at h; omega

/-- Witness for the amended C8: a five-byte reply `[8, 8, 0, 0, 2]`
parses with error code 8 and message id 512. -/
theorem closeListener_short_read_zero_padded_witness :
    List.length [8, 8, 0, 0, 2] < 6
    ∧ (closeListener (SocketRead.ok [8, 8, 0, 0, 2]) false).errorCode = 8
    ∧ (closeListener (SocketRead.ok [8, 8, 0, 0, 2]) false).messageId = 512 :=
  ⟨by decide,
    ((closeListener_short_read_zero_padded [8, 8, 0, 0, 2] false
      (by decide)).1).trans (by decide),
    ((closeListener_short_read_zero_padded [8, 8, 0, 0, 2] false
      (by decide)).2.1).trans (by decide)⟩

/-- Round-trip of the two-byte big-endian length field. -/
lemma be16val_be16 (n : Nat) (h : n < 65536) : be16val (be16 n) = n := by
  simp only [be16val, be16, List.getD]
  simp
  omega

/-- The timestamp word of a feedback header reads back modulo `2^32`. -/
lemma be32val_be32_append (ts : Nat) (tail : List Nat) :
    be32val (be32 ts ++ tail) = ts % 4294967296 := by
  simp only [be32val, be32, List.cons_append, List.getD]
  simp
  omega

/-- Consuming the well-formed records at the front of a read script
appends exactly their responses to the accumulator. -/
lemma readFromFeedbackService_records (records : List (Nat × List Nat))
    (htok : ∀ r ∈ records, r.2.length < 65536) :
    ∀ (tail : List ReadOutcome) (acc : List FeedbackResponse),
    readFromFeedbackService (records.flatMap feedbackRecordReads ++ tail) acc
      = readFromFeedbackService tail (acc ++ feedbackExpected records) := by
  induction records with
  | nil => intro tail acc; simp [feedbackExpected]
  | cons r rest ih =>
    intro tail acc
    have hr : r.2.length < 65536 := htok r (by simp)
    have hlen : (be32 r.1 ++ be16 r.2.length).length = 6 := rfl
    have hdrop : (be32 r.1 ++ be16 r.2.length).drop 4 = be16 r.2.length := rfl
    simp only [List.flatMap_cons, List.append_assoc, feedbackRecordReads,
      List.cons_append, List.nil_append]
    simp only [readFromFeedbackService, hlen]
    rw [if_neg (by omega)]
    rw [hdrop, be16val_be16 r.2.length hr]
    rw [if_neg (by omega)]
    rw [ih (fun x hx => htok x (List.mem_cons_of_mem r hx)) tail]
    rw [be32val_be32_append]
    simp [feedbackExpected]

/-- C5: running the feedback reader over `N` well-formed
`(timestamp, token length, token)` records followed by end-of-stream
returns exactly the `N` responses, in input order, with the record's
timestamp (a `uint32`) and hex-encoded token, and no error; if the
stream instead ends in a truncated record — a short header read, a
non-EOF transport error, or a token shorter than the promised length —
the reader returns the `N` complete responses together with an error. -/
theorem readFromFeedbackService_wellformed_and_truncated
    (records : List (Nat × List Nat)) (tail : List ReadOutcome)
    (htok : ∀ r ∈ records, r.2.length < 65536) :
    (readFromFeedbackService
        (records.flatMap feedbackRecordReads ++ [ReadOutcome.eos]) []
      = some (feedbackExpected records, none))
    ∧ (badFeedbackTail tail →
      ∃ e, readFromFeedbackService
          (records.flatMap feedbackRecordReads ++ tail) []
        = some (feedbackExpected records, some e)) := by
  constructor
  · rw [readFromFeedbackService_records records htok [ReadOutcome.eos] []]
    simp [readFromFeedbackService]
  · intro hbad
    rw [readFromFeedbackService_records records htok tail []]
    simp only [List.nil_append]
    rcases hbad with ⟨bs, rest, hteq, hshort⟩ | ⟨e, rest, hteq⟩
      | ⟨hdr, e, rest, hteq, hlen6⟩ | ⟨hdr, tok, rest, hteq, hlen6, hmis⟩
    · subst hteq
      refine ⟨.headerSize bs.length, ?_⟩
      rw [readFromFeedbackService.eq_def]
      simp only []
      rw [if_pos (by omega)]
    · subst hteq
      exact ⟨.transport e, rfl⟩
    · subst hteq
      refine ⟨.transport e, ?_⟩
      simp only [readFromFeedbackService]
      rw [if_neg (by omega)]
    · subst hteq
      refine ⟨.tokenSize (be16val (hdr.drop 4)) tok.length, ?_⟩
      simp only [readFromFeedbackService]
      rw [if_neg (by omega), if_pos (by omega)]

/-- Witness for C5: two concrete records then EOF yield both responses
in order; the same records followed by a short header read yield both
responses plus an error. -/
theorem readFromFeedbackService_witness :
    (readFromFeedbackService
        ([(837431, [0x4E, 0xC5]), (837432, [0xBA, 0x67, 0xFE])].flatMap
            feedbackRecordReads ++ [ReadOutcome.eos]) []
      = some ([⟨837431, strB "4ec5"⟩, ⟨837432, strB "ba67fe"⟩], none))
    ∧ (∃ e, readFromFeedbackService
        ([(837431, [0x4E, 0xC5]), (837432, [0xBA, 0x67, 0xFE])].flatMap
            feedbackRecordReads ++ [ReadOutcome.bytes [0, 1, 2]]) []
      = some ([⟨837431, strB "4ec5"⟩, ⟨837432, strB "ba67fe"⟩], some e)) := by
  have h := readFromFeedbackService_wellformed_and_truncated
    [(837431, [0x4E, 0xC5]), (837432, [0xBA, 0x67, 0xFE])]
    [ReadOutcome.bytes [0, 1, 2]] (by decide)
  have hexp : feedbackExpected
      [(837431, [0x4E, 0xC5]), (837432, [0xBA, 0x67, 0xFE])]
      = [⟨837431, strB "4ec5"⟩, ⟨837432, strB "ba67fe"⟩] := by decide
  refine ⟨hexp ▸ h.1, ?_⟩
  obtain ⟨e, he⟩ := h.2 (Or.inl ⟨[0, 1, 2], [], rfl, by decide⟩)
  exact ⟨e, hexp ▸ he⟩

/-- `marshalSimplePayload` writes only into its local aps copy. -/
lemma marshalSimplePayload_snd (p : Payload) (m : Int) :
    (marshalSimplePayload p m).2 = p := by
  simp only [marshalSimplePayload]
  repeat' split
  all_goals rfl

/-- `marshalAlertBodyPayload` writes only into its local aps copy. -/
lemma marshalAlertBodyPayload_snd (p : Payload) (m : Int) :
    (marshalAlertBodyPayload p m).2 = p := by
  simp only [marshalAlertBodyPayload]
  repeat' split
  all_goals rfl

/-- C10: `Marshal` leaves every field of the payload unchanged — also on
the truncation path, where the clipped alert text goes into a local copy
of the aps struct, never back into the payload. -/
theorem Marshal_leaves_payload_unchanged (p : Payload) (m : Int) :
    (Payload.Marshal p m).2.token = p.token
    ∧ (Payload.Marshal p m).2.alertText = p.alertText
    ∧ (Payload.Marshal p m).2.alertBody = p.alertBody
    ∧ (Payload.Marshal p m).2.badge = p.badge
    ∧ (Payload.Marshal p m).2.sound = p.sound
    ∧ (Payload.Marshal p m).2.category = p.category
    ∧ (Payload.Marshal p m).2.contentAvailable = p.contentAvailable
    ∧ (Payload.Marshal p m).2.customFields = p.customFields
    ∧ (Payload.Marshal p m).2.expirationTime = p.expirationTime
    ∧ (Payload.Marshal p m).2.priority = p.priority
    ∧ (Payload.Marshal p m).2.extraData = p.extraData
    ∧ (Payload.Marshal p m).2 = p := by
  have h : (Payload.Marshal p m).2 = p := by
    unfold Payload.Marshal
    split
    · exact marshalSimplePayload_snd p m
    · exact marshalAlertBodyPayload_snd p m
  rw [h]
  simp

/-- The item region's byte count is the sum of `3 + item_length` over the
items. -/
lemma flatMap_encItem_length (its : List (Nat × List Nat)) :
    (its.flatMap encItem).length
      = (its.map (fun it => 3 + it.2.length)).sum := by
  induction its with
  | nil => rfl
  | cons it rest ih => simp [encItem, be16, ih]; omega

/-- Parsing the item region produced by `encItem` recovers the items,
given enough fuel and two-byte-representable bodies. -/
lemma parseItemsF_flatMap (its : List (Nat × List Nat))
    (h : ∀ it ∈ its, it.2.length < 65536) :
    ∀ fuel, (its.flatMap encItem).length ≤ fuel →
    parseItemsF fuel (its.flatMap encItem) = some its := by
  induction its with
  | nil => intro fuel _; cases fuel <;> rfl
  | cons it rest ih =>
    obtain ⟨id, body⟩ := it
    intro fuel hf
    have hb : body.length < 65536 := by
      have := h (id, body) (by simp); simpa using this
    cases fuel with
    | zero => exfalso; simp [encItem, be16] at hf
    | succ f =>
      simp only [List.flatMap_cons, encItem, be16, List.cons_append,
        List.append_assoc, List.nil_append] at hf ⊢
      simp only [parseItemsF]
      rw [show body.length % 65536 / 256 * 256 + body.length % 256
        = body.length from by omega]
      rw [if_pos (by simp)]
      rw [List.take_left, List.drop_left]
      rw [ih (fun x hx => h x (List.mem_cons_of_mem _ hx)) f
        (by simp only [List.length_cons, List.length_append] at hf; omega)]
      rfl

/-- Structure of a successful `bufferPayload`: token decoded and 32 bytes
long, payload marshalled, and the frame is command byte 2, the
item-region length, and the rendered items. -/
lemma bufferPayload_ok (p : Payload) (id : Nat) (max : Int)
    (frame : List Nat) (h : bufferPayload p id max = .ok frame) :
    ∃ token payloadBytes,
      hexDecode p.token = some token ∧ token.length = 32
      ∧ (Payload.Marshal p max).1 = .ok payloadBytes
      ∧ frame = 2 ::
          (be32 ((bufferItems p id token payloadBytes).flatMap encItem).length
            ++ (bufferItems p id token payloadBytes).flatMap encItem) := by
  unfold bufferPayload at h
  rcases htok : hexDecode p.token with _ | token
  · simp [htok] at h
  · simp only [htok] at h
    split at h
    · simp at h
    · rename_i hlen
      rcases hm : (Payload.Marshal p max).1 with e | pb
      · simp [hm] at h
      · simp only [hm] at h
        refine ⟨token, pb, rfl, by omega, rfl, ?_⟩
        simpa using h.symm

/-- C4: every emitted notification frame is command byte 2 followed by
the four-byte big-endian frame length, which equals the sum of
`3 + item_length` over its items; items 1 (token, length 32), 2
(payload) and 3 (identifier, length 4) are always present, item 4
exactly when `ExpirationTime` is non-zero, and item 5 exactly when
`Priority` is 5 or 10, with item length 1 and a one-byte body. -/
theorem bufferPayload_frame_format (p : Payload) (id : Nat) (max : Int)
    (frame payloadBytes : List Nat)
    (hok : bufferPayload p id max = .ok frame)
    (hpb : (Payload.Marshal p max).1 = .ok payloadBytes)
    (hsmall : payloadBytes.length < 65536) :
    ∃ token its,
      hexDecode p.token = some token ∧ token.length = 32
      ∧ its = bufferItems p id token payloadBytes
      ∧ frame = 2 :: (be32 ((its.map (fun it => 3 + it.2.length)).sum)
          ++ its.flatMap encItem)
      ∧ (its.map (fun it => 3 + it.2.length)).sum < 4294967296
      ∧ its.map Prod.fst
          = [1, 2, 3] ++ (if p.expirationTime ≠ 0 then [4] else [])
            ++ (if p.priority = 10 ∨ p.priority = 5 then [5] else [])
      ∧ its.map (fun it => it.2.length)
          = [32, payloadBytes.length, 4]
            ++ (if p.expirationTime ≠ 0 then [4] else [])
            ++ (if p.priority = 10 ∨ p.priority = 5 then [1] else []) := by
  obtain ⟨token, pb, htok, hlen32, hpb2, hfr⟩ :=
    bufferPayload_ok p id max frame hok
  have hpbe : pb = payloadBytes := by
    rw [hpb] at hpb2
    exact (Except.ok.inj hpb2).symm
  subst hpbe
  refine ⟨token, bufferItems p id token pb, htok, hlen32, rfl, ?_, ?_, ?_, ?_⟩
  · rw [hfr, flatMap_encItem_length]
  · by_cases he : p.expirationTime ≠ 0 <;>
      by_cases hp : (p.priority = 10 ∨ p.priority = 5) <;>
      simp [bufferItems, he, hp, be32, hlen32] <;> omega
  · by_cases he : p.expirationTime ≠ 0 <;>
      by_cases hp : (p.priority = 10 ∨ p.priority = 5) <;>
      simp [bufferItems, he, hp]
  · by_cases he : p.expirationTime ≠ 0 <;>
      by_cases hp : (p.priority = 10 ∨ p.priority = 5) <;>
      simp [bufferItems, he, hp, be32, hlen32]

/-- Concrete payload with expiration and priority set. -/
def c4p : Payload := { wP "8f" with expirationTime := 1500, priority := 10 }

/-- Its emitted frame. -/
def c4frame : List Nat := (bufferPayload c4p 7 2048).toOption.getD []

/-- Its marshalled JSON bytes. -/
def c4pb : List Nat := ((Payload.Marshal c4p 2048).1).toOption.getD []

/-- Witness for C4: the frame format theorem applied to a concrete
payload carrying all five items. -/
theorem bufferPayload_frame_format_witness :
    ∃ token its,
      hexDecode c4p.token = some token ∧ token.length = 32
      ∧ its = bufferItems c4p 7 token c4pb
      ∧ c4frame = 2 :: (be32 ((its.map (fun it => 3 + it.2.length)).sum)
          ++ its.flatMap encItem)
      ∧ (its.map (fun it => 3 + it.2.length)).sum < 4294967296
      ∧ its.map Prod.fst
          = [1, 2, 3] ++ (if c4p.expirationTime ≠ 0 then [4] else [])
            ++ (if c4p.priority = 10 ∨ c4p.priority = 5 then [5] else [])
      ∧ its.map (fun it => it.2.length)
          = [32, c4pb.length, 4]
            ++ (if c4p.expirationTime ≠ 0 then [4] else [])
            ++ (if c4p.priority = 10 ∨ c4p.priority = 5 then [1] else []) :=
  bufferPayload_frame_format c4p 7 2048 c4frame c4pb (by rfl) (by rfl)
    (by decide)

/-- Concrete payload whose priority is neither 5 nor 10. -/
def c9p : Payload := { wP "8f" with priority := 7 }

/-- Its emitted frame. -/
def c9frame : List Nat := (bufferPayload c9p 1 2048).toOption.getD []

/-- Its marshalled JSON bytes. -/
def c9pb : List Nat := ((Payload.Marshal c9p 2048).1).toOption.getD []

/-- Counterexample for C9: for a payload with priority 7 the frame is
emitted successfully and its decoded items contain no priority item at
all — in particular no item with value 5. -/
theorem bufferPayload_priority_seven_no_item :
    c9p.priority ≠ 5 ∧ c9p.priority ≠ 10
    ∧ bufferPayload c9p 1 2048 = .ok c9frame
    ∧ (frameItems c9frame).isSome = true
    ∧ ((frameItems c9frame).getD []).all (fun it => it.1 ≠ 5) = true :=
  ⟨by decide, by decide, by rfl, by decide, by decide⟩

/-- C9 (amended): for a payload whose priority is neither 5 nor 10, no
priority item is emitted at all — the frame's decoded items are exactly
token, payload and identifier, plus expiration when set, and none of
them has item id 5.  (An earlier revision of the source instead coerced
such priorities to 5 and emitted the item; the current code omits it.) -/
theorem bufferPayload_nonstandard_priority_omitted (p : Payload) (id : Nat)
    (max : Int) (frame payloadBytes : List Nat)
    (h5 : p.priority ≠ 5) (h10 : p.priority ≠ 10)
    (hok : bufferPayload p id max = .ok frame)
    (hpb : (Payload.Marshal p max).1 = .ok payloadBytes)
    (hsmall : payloadBytes.length < 65536) :
    ∃ its, frameItems frame = some its
      ∧ (∀ it ∈ its, it.1 ≠ 5)
      ∧ its.map Prod.fst
          = [1, 2, 3] ++ (if p.expirationTime ≠ 0 then [4] else []) := by
  obtain ⟨token, pb, htok, hlen32, hpb2, hfr⟩ :=
    bufferPayload_ok p id max frame hok
  have hpbe : pb = payloadBytes := by
    rw [hpb] at hpb2
    exact (Except.ok.inj hpb2).symm
  subst hpbe
  have hprio : ¬(p.priority = 10 ∨ p.priority = 5) := by
    intro h; rcases h with h | h <;> omega
  have hbound : ∀ it ∈ bufferItems p id token pb, it.2.length < 65536 := by
    intro it hit
    by_cases he : p.expirationTime ≠ 0 <;>
      simp only [bufferItems, if_neg hprio, if_pos he, if_neg he,
        List.append_nil, List.nil_append, List.mem_append, List.mem_cons,
        List.mem_singleton, List.not_mem_nil, or_false] at hit
    · rcases hit with (h | h | h) | h <;> subst h
      · show token.length < 65536; omega
      · show pb.length < 65536; omega
      · simp [be32]
      · simp [be32]
    · rcases hit with h | h | h <;> subst h
      · show token.length < 65536; omega
      · show pb.length < 65536; omega
      · simp [be32]
  refine ⟨bufferItems p id token pb, ?_, ?_, ?_⟩
  · rw [hfr]
    have hdrop5 : (2 :: (be32 ((bufferItems p id token pb).flatMap encItem).length
        ++ (bufferItems p id token pb).flatMap encItem)).drop 5
        = (bufferItems p id token pb).flatMap encItem := by
      simp [be32]
    unfold frameItems parseItems
    rw [hdrop5]
    exact parseItemsF_flatMap (bufferItems p id token pb) hbound _ (Nat.le_refl _)
  · intro it hit
    by_cases he : p.expirationTime ≠ 0 <;>
      simp only [bufferItems, if_neg hprio, if_pos he, if_neg he,
        List.append_nil, List.nil_append, List.mem_append, List.mem_cons,
        List.mem_singleton, List.not_mem_nil, or_false] at hit
    · rcases hit with (h | h | h) | h <;> subst h <;> simp
    · rcases hit with h | h | h <;> subst h <;> simp
  · by_cases he : p.expirationTime ≠ 0 <;> simp [bufferItems, he, hprio]

/-- Witness for the amended C9: the priority-7 payload's frame decodes to
exactly the token, payload and identifier items. -/
theorem bufferPayload_nonstandard_priority_omitted_witness :
    ∃ its, frameItems c9frame = some its
      ∧ (∀ it ∈ its, it.1 ≠ 5)
      ∧ its.map Prod.fst
          = [1, 2, 3] ++ (if c9p.expirationTime ≠ 0 then [4] else []) :=
  bufferPayload_nonstandard_priority_omitted c9p 1 2048 c9frame c9pb
    (by decide) (by decide) (by rfl) (by rfl) (by decide)

/-- Inserting a member never yields the empty list. -/
lemma insertPair_ne_nil (p : GoStr × List Nat) (l : List (GoStr × List Nat)) :
    insertPair p l ≠ [] := by
  cases l with
  | nil => simp [insertPair]
  | cons q rest => simp only [insertPair]; split <;> simp

/-- `memberSep` of a non-empty member list is a comma. -/
lemma memberSep_ne_nil (l : List (GoStr × List Nat)) (h : l ≠ []) :
    memberSep l = [0x2C] := by
  cases l with
  | nil => exact absurd rfl h
  | cons q rest => rfl

/-- Sorting distributes as insertion over cons. -/
lemma sortPairs_cons (x : GoStr × List Nat) (l : List (GoStr × List Nat)) :
    sortPairs (x :: l) = insertPair x (sortPairs l) := rfl

/-- Inserting the member `(k, v)` into a fixed member list and rendering
yields bytes of the shape `pre ++ v ++ post` with `pre`/`post` not
depending on `v`. -/
lemma renderInner_insert_decomp (sc : List (GoStr × List Nat)) (k : GoStr) :
    ∃ pre post, ∀ v, renderInner (insertPair (k, v) sc) = pre ++ v ++ post := by
  induction sc with
  | nil =>
    refine ⟨jsonStrLit k ++ [0x3A], [], ?_⟩
    intro v
    simp [insertPair, renderInner, memberSep]
  | cons q rest ih =>
    obtain ⟨q1, q2⟩ := q
    by_cases hq : strLt q1 k
    · obtain ⟨pre, post, hpp⟩ := ih
      refine ⟨jsonStrLit q1 ++ [0x3A] ++ q2 ++ [0x2C] ++ pre, post, ?_⟩
      intro v
      have hne := insertPair_ne_nil (k, v) rest
      simp only [insertPair, hq, if_pos, renderInner,
        memberSep_ne_nil _ hne, hpp v]
      simp
    · refine ⟨jsonStrLit k ++ [0x3A],
        [0x2C] ++ renderInner ((q1, q2) :: rest), ?_⟩
      intro v
      simp only [insertPair, hq, if_neg, renderInner, memberSep]
      simp [renderInner]

/-- Object-level version of `renderInner_insert_decomp`. -/
lemma renderObj_insert_decomp (sc : List (GoStr × List Nat)) (k : GoStr) :
    ∃ pre post, ∀ v, renderObj (insertPair (k, v) sc) = pre ++ v ++ post := by
  obtain ⟨pre, post, h⟩ := renderInner_insert_decomp sc k
  refine ⟨0x7B :: pre, post ++ [0x7D], ?_⟩
  intro v
  simp [renderObj, h v]

/-- Rendering an object whose head member is `(k, v)` likewise splits
around `v`. -/
lemma renderObj_cons_decomp (fixed : List (GoStr × List Nat)) (k : GoStr) :
    ∃ pre post, ∀ v, renderObj ((k, v) :: fixed) = pre ++ v ++ post := by
  refine ⟨0x7B :: (jsonStrLit k ++ [0x3A]),
    memberSep fixed ++ renderInner fixed ++ [0x7D], ?_⟩
  intro v
  simp [renderObj, renderInner]

/-- Unfolding the escape of a leading ASCII byte. -/
lemma jsonEsc_cons_ascii (b : Nat) (rest : GoStr) (h : b < 0x80) :
    jsonEsc (b :: rest) = escByte b ++ jsonEsc rest := by
  have : jsonEscF (rest.length + 1) (b :: rest)
      = escByte b ++ jsonEscF rest.length rest := by
    simp only [jsonEscF]
    rw [if_pos h]
  simpa [jsonEsc] using this

/-- The escape of an ASCII prefix splits off. -/
lemma jsonEsc_append_ascii (l1 l2 : GoStr) (h : ∀ b ∈ l1, b < 0x80) :
    jsonEsc (l1 ++ l2) = jsonEsc l1 ++ jsonEsc l2 := by
  induction l1 with
  | nil => simp [jsonEsc, jsonEscF]
  | cons b rest ih =>
    have hb : b < 0x80 := h b (by simp)
    rw [List.cons_append, jsonEsc_cons_ascii b (rest ++ l2) hb,
      jsonEsc_cons_ascii b rest hb,
      ih (fun x hx => h x (List.mem_cons_of_mem b hx)), List.append_assoc]

/-- Every ASCII byte contributes at least one output byte. -/
lemma escByte_len_pos (b : Nat) : 1 ≤ (escByte b).length := by
  unfold escByte u00esc
  repeat' split
  all_goals simp

/-- The escape of an ASCII string is at least as long as the string. -/
lemma jsonEsc_ascii_len_ge (l : GoStr) (h : ∀ b ∈ l, b < 0x80) :
    l.length ≤ (jsonEsc l).length := by
  induction l with
  | nil => simp
  | cons b rest ih =>
    rw [jsonEsc_cons_ascii b rest (h b (by simp))]
    have h1 := escByte_len_pos b
    have h2 := ih (fun x hx => h x (List.mem_cons_of_mem b hx))
    simp only [List.length_cons, List.length_append]
    omega

/-- The ellipsis is escaped to itself. -/
lemma jsonEsc_dots : jsonEsc (strB "...") = strB "..." := by decide

/-- The simple aps object's bytes split around the escaped alert text
whenever the alert is non-empty, with surroundings independent of it. -/
lemma simpleAps_MarshalJSON_decomp (badge : BadgeNumber)
    (sound category : GoStr) (ca : Int) :
    ∃ pre post, ∀ alert : GoStr, alert ≠ [] →
      SimpleAps.MarshalJSON ⟨alert, badge, sound, category, ca⟩
        = pre ++ jsonEsc alert ++ post := by
  obtain ⟨pre, post, h⟩ := renderObj_insert_decomp
    (sortPairs ((if badge.IsSet then [(strB "badge", badge.enc)] else [])
      ++ (if sound ≠ [] then [(strB "sound", jsonStrLit sound)] else [])
      ++ (if category ≠ [] then
            [(strB "category", jsonStrLit category)] else [])
      ++ (if ca ≠ 0 then [(strB "content-available", intDec ca)] else [])))
    (strB "alert")
  refine ⟨pre ++ [0x22], [0x22] ++ post, ?_⟩
  intro alert ha
  show jsonMarshalMap _ = _
  simp only [SimpleAps.MarshalJSON]
  rw [if_pos ha, List.singleton_append]
  exact (h (jsonStrLit alert)).trans (by simp [jsonStrLit])

/-- The structured aps object's bytes split around the escaped alert
body whenever the body is non-empty. -/
lemma alertBodyAps_MarshalJSON_decomp (alk lk li ti tlk : GoStr)
    (la tla : List GoStr) (badge : BadgeNumber)
    (sound category : GoStr) (ca : Int) :
    ∃ pre post, ∀ body : GoStr, body ≠ [] →
      AlertBodyAps.MarshalJSON
          ⟨⟨body, alk, lk, la, li, ti, tlk, tla⟩, badge, sound, category, ca⟩
        = pre ++ jsonEsc body ++ post := by
  obtain ⟨preB, postB, hB⟩ := renderObj_cons_decomp
    ((if alk ≠ [] then [(strB "action-loc-key", jsonStrLit alk)] else [])
      ++ (if lk ≠ [] then [(strB "loc-key", jsonStrLit lk)] else [])
      ++ (if la ≠ [] then
            [(strB "loc-args", renderArr (la.map jsonStrLit))] else [])
      ++ (if li ≠ [] then [(strB "launch-image", jsonStrLit li)] else [])
      ++ (if ti ≠ [] then [(strB "title", jsonStrLit ti)] else [])
      ++ (if tlk ≠ [] then [(strB "title-loc-key", jsonStrLit tlk)] else [])
      ++ (if tla ≠ [] then
            [(strB "title-loc-args", renderArr (tla.map jsonStrLit))]
          else []))
    (strB "body")
  obtain ⟨preA, postA, hA2⟩ := renderObj_insert_decomp
    (sortPairs ((if badge.IsSet then [(strB "badge", badge.enc)] else [])
      ++ (if sound ≠ [] then [(strB "sound", jsonStrLit sound)] else [])
      ++ (if category ≠ [] then
            [(strB "category", jsonStrLit category)] else [])
      ++ (if ca ≠ 0 then [(strB "content-available", intDec ca)] else [])))
    (strB "alert")
  refine ⟨preA ++ (preB ++ [0x22]), ([0x22] ++ postB) ++ postA, ?_⟩
  intro body hb
  have henc : APSAlertBody.enc ⟨body, alk, lk, la, li, ti, tlk, tla⟩
      = preB ++ jsonStrLit body ++ postB := by
    simp only [APSAlertBody.enc]
    rw [if_pos hb, List.singleton_append]
    exact hB (jsonStrLit body)
  show jsonMarshalMap _ = _
  simp only [AlertBodyAps.MarshalJSON]
  rw [List.singleton_append]
  exact (hA2 (APSAlertBody.enc ⟨body, alk, lk, la, li, ti, tlk, tla⟩)).trans
    (by rw [henc]; simp [jsonStrLit])

/-- The full payload's bytes split around the rendered aps value. -/
lemma jsonMarshalMap_aps_decomp (customsEnc : List (GoStr × List Nat)) :
    ∃ pre post, ∀ v,
      jsonMarshalMap ((strB "aps", v) :: customsEnc) = pre ++ v ++ post := by
  obtain ⟨pre, post, h⟩ := renderObj_insert_decomp (sortPairs customsEnc)
    (strB "aps")
  exact ⟨pre, post, fun v => h v⟩

/-- Length of the simple-form payload JSON as a constant plus the length
of the escaped alert text. -/
lemma simple_len_decomp (badge : BadgeNumber) (sound category : GoStr)
    (ca : Int) (customsEnc : List (GoStr × List Nat)) :
    ∃ K : Nat, ∀ alert : GoStr, alert ≠ [] →
      (jsonMarshalMap ((strB "aps",
          SimpleAps.MarshalJSON ⟨alert, badge, sound, category, ca⟩)
        :: customsEnc)).length = K + (jsonEsc alert).length := by
  obtain ⟨preA, postA, hA⟩ := simpleAps_MarshalJSON_decomp badge sound category ca
  obtain ⟨preT, postT, hT⟩ := jsonMarshalMap_aps_decomp customsEnc
  refine ⟨preT.length + preA.length + postA.length + postT.length, ?_⟩
  intro alert ha
  rw [hT, hA alert ha]
  simp only [List.length_append]
  omega

/-- Length of the structured-form payload JSON as a constant plus the
length of the escaped alert body. -/
lemma alertBody_len_decomp (alk lk li ti tlk : GoStr) (la tla : List GoStr)
    (badge : BadgeNumber) (sound category : GoStr) (ca : Int)
    (customsEnc : List (GoStr × List Nat)) :
    ∃ K : Nat, ∀ body : GoStr, body ≠ [] →
      (jsonMarshalMap ((strB "aps",
          AlertBodyAps.MarshalJSON
            ⟨⟨body, alk, lk, la, li, ti, tlk, tla⟩, badge, sound, category, ca⟩)
        :: customsEnc)).length = K + (jsonEsc body).length := by
  obtain ⟨preA, postA, hA⟩ :=
    alertBodyAps_MarshalJSON_decomp alk lk li ti tlk la tla badge sound category ca
  obtain ⟨preT, postT, hT⟩ := jsonMarshalMap_aps_decomp customsEnc
  refine ⟨preT.length + preA.length + postA.length + postT.length, ?_⟩
  intro body hb
  rw [hT, hA body hb]
  simp only [List.length_append]
  omega

/-- Core truncation bound: when the first pass measured
`L = K + |jsonEsc src|` over budget and the clip fits inside the ASCII
source, the re-serialized length is within budget, because the dropped
ASCII suffix contributed at least `clip` bytes and the ellipsis adds
exactly three. -/
lemma trunc_second_le (K : Nat) (src : GoStr) (max : Int)
    (hA : ∀ b ∈ src, b < 0x80)
    (hover : (K : Int) + (jsonEsc src).length > max)
    (hclip : (K : Int) + (jsonEsc src).length - max + 3 ≤ (src.length : Int)) :
    (K : Int) + (jsonEsc (src.take (src.length
        - ((K : Int) + (jsonEsc src).length - max + 3).toNat)
      ++ strB "...")).length ≤ max := by
  have hcpos : (0 : Int) < (K : Int) + (jsonEsc src).length - max + 3 := by
    omega
  have hceq : ((((K : Int) + (jsonEsc src).length - max + 3).toNat : Int))
      = (K : Int) + (jsonEsc src).length - max + 3 :=
    Int.toNat_of_nonneg (le_of_lt hcpos)
  have hcn : ((K : Int) + (jsonEsc src).length - max + 3).toNat
      ≤ src.length := by omega
  have hAt : ∀ b ∈ src.take (src.length
      - ((K : Int) + (jsonEsc src).length - max + 3).toNat), b < 0x80 :=
    fun b hb => hA b (List.mem_of_mem_take hb)
  have hAd : ∀ b ∈ src.drop (src.length
      - ((K : Int) + (jsonEsc src).length - max + 3).toNat), b < 0x80 :=
    fun b hb => hA b (List.mem_of_mem_drop hb)
  have hdlen : (src.drop (src.length
      - ((K : Int) + (jsonEsc src).length - max + 3).toNat)).length
      = ((K : Int) + (jsonEsc src).length - max + 3).toNat := by
    rw [List.length_drop]
    omega
  have he1 : (jsonEsc src).length
      = (jsonEsc (src.take (src.length
          - ((K : Int) + (jsonEsc src).length - max + 3).toNat))).length
        + (jsonEsc (src.drop (src.length
          - ((K : Int) + (jsonEsc src).length - max + 3).toNat))).length := by
    conv_lhs => rw [← List.take_append_drop (src.length
      - ((K : Int) + (jsonEsc src).length - max + 3).toNat) src]
    rw [jsonEsc_append_ascii _ _ hAt]
    simp [List.length_append]
  have he2 : (jsonEsc (src.take (src.length
      - ((K : Int) + (jsonEsc src).length - max + 3).toNat)
        ++ strB "...")).length
      = (jsonEsc (src.take (src.length
          - ((K : Int) + (jsonEsc src).length - max + 3).toNat))).length + 3 := by
    rw [jsonEsc_append_ascii _ _ hAt, jsonEsc_dots]
    simp [List.length_append, strB]
  have hge := jsonEsc_ascii_len_ge _ hAd
  rw [hdlen] at hge
  rw [he2]
  omega

/-- Whether the custom fields contain the reserved key `aps`. -/
def hasApsKey (cf : List (GoStr × Jv)) : Bool :=
  cf.any (fun kv => kv.1 = strB "aps")

/-- The rendered custom-field members. -/
def customsEnc (p : Payload) : List (GoStr × List Nat) :=
  p.customFields.map (fun kv => (kv.1, kv.2.enc))

/-- The simple aps struct built from a payload. -/
def simpleApsOf (p : Payload) : SimpleAps :=
  ⟨p.alertText, p.badge, p.sound, p.category, p.contentAvailable⟩

/-- The structured aps struct built from a payload. -/
def alertApsOf (p : Payload) : AlertBodyAps :=
  ⟨p.alertBody, p.badge, p.sound, p.category, p.contentAvailable⟩

/-- The bytes of the first serialization pass. -/
def firstPassJson (p : Payload) : List Nat :=
  if p.isSimple then
    jsonMarshalMap ((strB "aps", (simpleApsOf p).MarshalJSON) :: customsEnc p)
  else
    jsonMarshalMap ((strB "aps", (alertApsOf p).MarshalJSON) :: customsEnc p)

/-- The single truncatable field: the alert text in simple form, the
alert body in structured form. -/
def truncSource (p : Payload) : GoStr :=
  if p.isSimple then p.alertText else p.alertBody.body

/-- The clip the truncation path computes: first-pass length minus the
budget, plus three bytes for the ellipsis. -/
def clipOf (p : Payload) (max : Int) : Int :=
  ((firstPassJson p).length : Int) - max + 3

/-- The bytes of the re-serialization after clipping the source and
appending the ellipsis. -/
def secondPassJson (p : Payload) (max : Int) : List Nat :=
  if p.isSimple then
    jsonMarshalMap ((strB "aps",
      SimpleAps.MarshalJSON
        ⟨p.alertText.take (p.alertText.length - (clipOf p max).toNat)
            ++ strB "...",
          p.badge, p.sound, p.category, p.contentAvailable⟩) :: customsEnc p)
  else
    jsonMarshalMap ((strB "aps",
      AlertBodyAps.MarshalJSON
        ⟨{ p.alertBody with
            body := p.alertBody.body.take
                (p.alertBody.body.length - (clipOf p max).toNat)
              ++ strB "..." },
          p.badge, p.sound, p.category, p.contentAvailable⟩) :: customsEnc p)

/-- A reserved custom key fails `constructFullPayload`. -/
lemma constructFullPayload_of_hasAps (apsB : List Nat)
    (cf : List (GoStr × Jv)) (h : hasApsKey cf = true) :
    constructFullPayload apsB cf = .error .reservedKeyAps := by
  unfold hasApsKey at h
  simp [constructFullPayload, h]

/-- Without the reserved key, `constructFullPayload` yields the aps
member followed by the rendered custom fields. -/
lemma constructFullPayload_of_no_aps (apsB : List Nat)
    (cf : List (GoStr × Jv)) (h : hasApsKey cf = false) :
    constructFullPayload apsB cf
      = .ok ((strB "aps", apsB) :: cf.map (fun kv => (kv.1, kv.2.enc))) := by
  unfold hasApsKey at h
  simp [constructFullPayload, h]

/-- Updating the `aps` member replaces only the head when no custom
field uses the reserved key. -/
lemma setPair_aps (v w : List Nat) (cf : List (GoStr × Jv))
    (h : hasApsKey cf = false) :
    setPair (strB "aps") v
        ((strB "aps", w) :: cf.map (fun kv => (kv.1, kv.2.enc)))
      = (strB "aps", v) :: cf.map (fun kv => (kv.1, kv.2.enc)) := by
  unfold hasApsKey at h
  simp only [List.any_eq_false, decide_eq_true_eq] at h
  simp only [setPair, List.map_cons, if_pos rfl]
  congr 1
  rw [List.map_map]
  apply List.map_congr_left
  intro kv hkv
  simp [Function.comp, h kv hkv]

/-- A custom field named `aps` makes `Marshal` fail with the
reserved-key error, in both forms. -/
lemma Marshal_reserved_key (p : Payload) (max : Int)
    (h : hasApsKey p.customFields = true) :
    (Payload.Marshal p max).1 = .error .reservedKeyAps := by
  unfold Payload.Marshal
  split
  · simp only [marshalSimplePayload, constructFullPayload_of_hasAps _ _ h]
  · simp only [marshalAlertBodyPayload, constructFullPayload_of_hasAps _ _ h]

/-- Within budget, `Marshal` returns the first pass unchanged. -/
lemma Marshal_ok_first_pass (p : Payload) (max : Int)
    (h1 : hasApsKey p.customFields = false)
    (h2 : ((firstPassJson p).length : Int) ≤ max) :
    (Payload.Marshal p max).1 = .ok (firstPassJson p) := by
  unfold Payload.Marshal
  by_cases hs : p.isSimple = true
  · rw [if_pos hs]
    have h2' := h2
    simp only [firstPassJson, hs, if_pos, simpleApsOf, customsEnc] at h2'
    simp only [marshalSimplePayload, constructFullPayload_of_no_aps _ _ h1]
    rw [if_neg (not_lt.mpr h2')]
    simp [firstPassJson, hs, simpleApsOf, customsEnc]
  · rw [if_neg hs]
    have h2' := h2
    simp [firstPassJson, hs, simpleApsOf, alertApsOf, customsEnc] at h2'
    simp only [marshalAlertBodyPayload, constructFullPayload_of_no_aps _ _ h1]
    rw [if_neg (not_lt.mpr h2')]
    simp [firstPassJson, hs, alertApsOf, customsEnc]

/-- Over budget with a clip exceeding the truncatable source, `Marshal`
fails with the payload-too-large error. -/
lemma Marshal_too_large (p : Payload) (max : Int)
    (h1 : hasApsKey p.customFields = false)
    (h2 : ((firstPassJson p).length : Int) > max)
    (h3 : clipOf p max > ((truncSource p).length : Int)) :
    (Payload.Marshal p max).1 = .error .payloadTooLarge := by
  unfold Payload.Marshal
  by_cases hs : p.isSimple = true
  · rw [if_pos hs]
    have h2' := h2
    simp [firstPassJson, hs, simpleApsOf, customsEnc] at h2'
    have h3' := h3
    simp [clipOf, truncSource, firstPassJson, hs, simpleApsOf,
      customsEnc] at h3'
    simp only [marshalSimplePayload, constructFullPayload_of_no_aps _ _ h1]
    rw [if_pos h2', if_pos h3']
  · rw [if_neg hs]
    have h2' := h2
    simp [firstPassJson, hs, alertApsOf, customsEnc] at h2'
    have h3' := h3
    simp [clipOf, truncSource, firstPassJson, hs, alertApsOf,
      customsEnc] at h3'
    simp only [marshalAlertBodyPayload, constructFullPayload_of_no_aps _ _ h1]
    rw [if_pos h2', if_pos h3']

/-- Over budget with a clip that fits, `Marshal` clips the source into a
local aps copy, re-serializes exactly once and succeeds. -/
lemma Marshal_ok_second_pass (p : Payload) (max : Int)
    (h1 : hasApsKey p.customFields = false)
    (h2 : ((firstPassJson p).length : Int) > max)
    (h3 : clipOf p max ≤ ((truncSource p).length : Int)) :
    (Payload.Marshal p max).1 = .ok (secondPassJson p max) := by
  unfold Payload.Marshal
  by_cases hs : p.isSimple = true
  · rw [if_pos hs]
    have h2' := h2
    simp [firstPassJson, hs, simpleApsOf, customsEnc] at h2'
    have h3' := h3
    simp [clipOf, truncSource, firstPassJson, hs, simpleApsOf,
      customsEnc] at h3'
    simp only [marshalSimplePayload, constructFullPayload_of_no_aps _ _ h1]
    rw [if_pos h2', if_neg (not_lt.mpr h3'), setPair_aps _ _ _ h1]
    simp [secondPassJson, hs, clipOf, firstPassJson, simpleApsOf, customsEnc]
  · rw [if_neg hs]
    have h2' := h2
    simp [firstPassJson, hs, alertApsOf, customsEnc] at h2'
    have h3' := h3
    simp [clipOf, truncSource, firstPassJson, hs, alertApsOf,
      customsEnc] at h3'
    simp only [marshalAlertBodyPayload, constructFullPayload_of_no_aps _ _ h1]
    rw [if_pos h2', if_neg (not_lt.mpr h3'), setPair_aps _ _ _ h1]
    simp [secondPassJson, hs, clipOf, firstPassJson, alertApsOf, customsEnc]

/-- The re-serialized payload fits the budget whenever the truncatable
source is ASCII and the clip fits inside it. -/
lemma secondPass_len_le (p : Payload) (max : Int)
    (hA : ∀ b ∈ truncSource p, b < 0x80)
    (h2 : ((firstPassJson p).length : Int) > max)
    (h3 : clipOf p max ≤ ((truncSource p).length : Int)) :
    ((secondPassJson p max).length : Int) ≤ max := by
  by_cases hs : p.isSimple = true
  · have hA' : ∀ b ∈ p.alertText, b < 0x80 := by
      simpa [truncSource, hs] using hA
    have hsrc3 : clipOf p max ≤ ((p.alertText.length : Nat) : Int) := by
      simpa [truncSource, hs] using h3
    have hclip4 : (4 : Int) ≤ clipOf p max := by
      simp only [clipOf]
      omega
    have hne : p.alertText ≠ [] := by
      intro hnil
      rw [hnil] at hsrc3
      simp at hsrc3
      omega
    obtain ⟨K, hK⟩ := simple_len_decomp p.badge p.sound p.category
      p.contentAvailable (customsEnc p)
    have hfirst : (firstPassJson p).length
        = K + (jsonEsc p.alertText).length := by
      have := hK p.alertText hne
      simpa [firstPassJson, hs, simpleApsOf] using this
    have hsecond : (secondPassJson p max).length
        = K + (jsonEsc (p.alertText.take
            (p.alertText.length - (clipOf p max).toNat)
          ++ strB "...")).length := by
      have := hK (p.alertText.take (p.alertText.length - (clipOf p max).toNat)
        ++ strB "...") (by simp [strB])
      simpa [secondPassJson, hs] using this
    have harg : (clipOf p max).toNat
        = ((K : Int) + (jsonEsc p.alertText).length - max + 3).toNat := by
      apply congrArg Int.toNat
      rw [clipOf, hfirst]
      push_cast
      ring
    have hover : (K : Int) + (jsonEsc p.alertText).length > max := by
      rw [hfirst] at h2
      push_cast at h2
      omega
    have hclip : (K : Int) + (jsonEsc p.alertText).length - max + 3
        ≤ (p.alertText.length : Int) := by
      rw [clipOf, hfirst] at hsrc3
      push_cast at hsrc3 ⊢
      omega
    rw [hsecond, harg]
    have := trunc_second_le K p.alertText max hA' hover hclip
    push_cast at this ⊢
    omega
  · have hA' : ∀ b ∈ p.alertBody.body, b < 0x80 := by
      simpa [truncSource, hs] using hA
    have hsrc3 : clipOf p max ≤ ((p.alertBody.body.length : Nat) : Int) := by
      simpa [truncSource, hs] using h3
    have hclip4 : (4 : Int) ≤ clipOf p max := by
      simp only [clipOf]
      omega
    have hne : p.alertBody.body ≠ [] := by
      intro hnil
      rw [hnil] at hsrc3
      simp at hsrc3
      omega
    obtain ⟨K, hK⟩ := alertBody_len_decomp p.alertBody.actionLocKey
      p.alertBody.locKey p.alertBody.launchImage p.alertBody.title
      p.alertBody.titleLocKey p.alertBody.locArgs p.alertBody.titleLocArgs
      p.badge p.sound p.category p.contentAvailable (customsEnc p)
    have hfirst : (firstPassJson p).length
        = K + (jsonEsc p.alertBody.body).length := by
      have := hK p.alertBody.body hne
      simpa [firstPassJson, hs, alertApsOf] using this
    have hsecond : (secondPassJson p max).length
        = K + (jsonEsc (p.alertBody.body.take
            (p.alertBody.body.length - (clipOf p max).toNat)
          ++ strB "...")).length := by
      have := hK (p.alertBody.body.take
          (p.alertBody.body.length - (clipOf p max).toNat)
        ++ strB "...") (by simp [strB])
      simpa [secondPassJson, hs] using this
    have harg : (clipOf p max).toNat
        = ((K : Int) + (jsonEsc p.alertBody.body).length - max + 3).toNat := by
      apply congrArg Int.toNat
      rw [clipOf, hfirst]
      push_cast
      ring
    have hover : (K : Int) + (jsonEsc p.alertBody.body).length > max := by
      rw [hfirst] at h2
      push_cast at h2
      omega
    have hclip : (K : Int) + (jsonEsc p.alertBody.body).length - max + 3
        ≤ (p.alertBody.body.length : Int) := by
      rw [clipOf, hfirst] at hsrc3
      push_cast at hsrc3 ⊢
      omega
    rw [hsecond, harg]
    have := trunc_second_le K p.alertBody.body max hA' hover hclip
    push_cast at this ⊢
    omega

/-- Payload whose alert text ends with a clipped four-byte emoji
sequence. -/
def c3p : Payload := { wP "8f" with
  alertText := [0xF0, 0x9F, 0x98, 0x80, 0x62, 0x62] }

/-- The bytes `Marshal` returns for it at budget 25. -/
def c3bytes : List Nat := ((Payload.Marshal c3p 25).1).toOption.getD []

/-- Counterexample for C3: when byte-wise clipping splits a multi-byte
UTF-8 character, the re-serialization (done without re-checking the
length) inflates the orphaned lead bytes to `�` escapes and the
returned JSON is 35 bytes, exceeding the 25-byte budget — yet `Marshal`
reports success. -/
theorem Marshal_truncation_exceeds_budget :
    (Payload.Marshal c3p 25).1 = .ok c3bytes
    ∧ c3bytes.length = 35
    ∧ ¬(c3bytes.length ≤ 25) :=
  ⟨by rfl, by decide, by decide⟩

/-- C3 (amended): whenever `Marshal` succeeds and the truncatable alert
source (`AlertText` in simple form, `AlertBody.Body` in structured form)
consists of ASCII bytes, the returned JSON has length at most
`maxPayloadSize`, including the single-pass truncation path; byte-wise
clipping inside a multi-byte UTF-8 sequence can instead exceed the
budget. -/
theorem Marshal_ok_length_le_of_ascii (p : Payload) (max : Int)
    (bytes : List Nat)
    (hA : ∀ b ∈ truncSource p, b < 0x80)
    (hok : (Payload.Marshal p max).1 = .ok bytes) :
    (bytes.length : Int) ≤ max := by
  by_cases h1 : hasApsKey p.customFields = true
  · rw [Marshal_reserved_key p max h1] at hok
    simp at hok
  · have h1' : hasApsKey p.customFields = false := by simpa using h1
    by_cases h2 : ((firstPassJson p).length : Int) > max
    · by_cases h3 : clipOf p max > ((truncSource p).length : Int)
      · rw [Marshal_too_large p max h1' h2 h3] at hok
        simp at hok
      · have h3' := not_lt.mp h3
        rw [Marshal_ok_second_pass p max h1' h2 h3'] at hok
        rw [← Except.ok.inj hok]
        exact secondPass_len_le p max hA h2 h3'
    · rw [Marshal_ok_first_pass p max h1' (not_lt.mp h2)] at hok
      rw [← Except.ok.inj hok]
      exact not_lt.mp h2

/-- Witness for the amended C3: an ASCII payload truncated at budget 26
comes back 26 bytes long, within the bound established by the theorem. -/
theorem Marshal_ok_length_le_of_ascii_witness :
    (Payload.Marshal (wP "8f") 26).1
      = .ok (((Payload.Marshal (wP "8f") 26).1).toOption.getD [])
    ∧ ((((Payload.Marshal (wP "8f") 26).1).toOption.getD []).length : Int)
        ≤ 26
    ∧ (((Payload.Marshal (wP "8f") 26).1).toOption.getD []).length = 26 :=
  ⟨by rfl,
    Marshal_ok_length_le_of_ascii (wP "8f") 26 _ (by decide) (by rfl),
    by decide⟩

/-- C7: `Marshal` fails exactly when a custom field is named `aps`
(reserved-key error) or the first pass exceeded the budget and the clip
`L - max + 3` exceeds the truncatable source (payload-too-large);
in the remaining over-budget case it clips the source, appends `...`,
re-serializes exactly once and succeeds. -/
theorem Marshal_error_characterization (p : Payload) (max : Int) :
    ((∃ e, (Payload.Marshal p max).1 = .error e) ↔
      (hasApsKey p.customFields = true
        ∨ (((firstPassJson p).length : Int) > max
            ∧ clipOf p max > ((truncSource p).length : Int))))
    ∧ (hasApsKey p.customFields = true →
        (Payload.Marshal p max).1 = .error GoErr.reservedKeyAps)
    ∧ (hasApsKey p.customFields = false →
        ((firstPassJson p).length : Int) > max →
        clipOf p max > ((truncSource p).length : Int) →
        (Payload.Marshal p max).1 = .error GoErr.payloadTooLarge)
    ∧ (hasApsKey p.customFields = false →
        ((firstPassJson p).length : Int) > max →
        clipOf p max ≤ ((truncSource p).length : Int) →
        (Payload.Marshal p max).1 = .ok (secondPassJson p max)) := by
  refine ⟨?_, Marshal_reserved_key p max, Marshal_too_large p max,
    Marshal_ok_second_pass p max⟩
  constructor
  · rintro ⟨e, he⟩
    by_cases h1 : hasApsKey p.customFields = true
    · exact Or.inl h1
    · have h1' : hasApsKey p.customFields = false := by simpa using h1
      by_cases h2 : ((firstPassJson p).length : Int) > max
      · by_cases h3 : clipOf p max > ((truncSource p).length : Int)
        · exact Or.inr ⟨h2, h3⟩
        · rw [Marshal_ok_second_pass p max h1' h2 (not_lt.mp h3)] at he
          simp at he
      · rw [Marshal_ok_first_pass p max h1' (not_lt.mp h2)] at he
        simp at he
  · intro h
    rcases h with h1 | ⟨h2, h3⟩
    · exact ⟨_, Marshal_reserved_key p max h1⟩
    · by_cases h1 : hasApsKey p.customFields = true
      · exact ⟨_, Marshal_reserved_key p max h1⟩
      · exact ⟨_, Marshal_too_large p max (by simpa using h1) h2 h3⟩

/-- Payload carrying a custom field named `aps`. -/
def c7p : Payload := { wP "8f" with customFields := [(strB "aps", Jv.jnum 1)] }

/-- Witness for C7: the reserved key fails with the reserved-key error,
and an over-budget ASCII payload with a fitting clip succeeds with the
truncated second pass. -/
theorem Marshal_error_characterization_witness :
    (Payload.Marshal c7p 2048).1 = .error GoErr.reservedKeyAps
    ∧ (∃ e, (Payload.Marshal c7p 2048).1 = .error e)
    ∧ (Payload.Marshal (wP "8f") 26).1 = .ok (secondPassJson (wP "8f") 26) :=
  ⟨(Marshal_error_characterization c7p 2048).2.1 (by decide),
    (Marshal_error_characterization c7p 2048).1.mpr (Or.inl (by decide)),
    (Marshal_error_characterization (wP "8f") 26).2.2.2 (by decide)
      (by decide) (by decide)⟩
